import Mathlib

/-!
Verification of the protocol-identification-and-replay subsystem (PIA) of
zeek-fractal, a shallow embedding of src/src/analyzer/protocol/pia/PIA.h.
Only the header is in the excerpt; inline members (the Buffer constructor,
the PIA_TCP constructor, PIA_UDP::DeliverPacket, PIA_TCP::DeliverPacket)
are embedded from the source, while the out-of-line method bodies are
modelled from the specification, as marked on each definition.
Machine integers (int len, int size, uint64_t seq) are modelled as Nat;
byte payloads as List Nat; the IP header pointer as an Option Nat tag.
-/

namespace ZeekPIA

/-- Demultiplexer phase, PIA.h line 47: enum State. -/
inductive State where
  | INIT
  | BUFFERING
  | MATCHING_ONLY
  | SKIPPING
deriving DecidableEq, Repr

/-- One buffered chunk, PIA.h lines 51-58 (struct DataBlock). The next
pointer of the intrusive list is replaced by the list structure of Buffer. -/
structure DataBlock where
  ip : Option Nat
  data : List Nat
  is_orig : Bool
  len : Nat
  seq : Nat
deriving DecidableEq, Repr

/-- The buffered chunk store, PIA.h lines 60-67 (struct Buffer); the
head/tail linked chain is represented as a head-to-tail list. -/
structure Buffer where
  blocks : List DataBlock
  size : Nat
  state : State
deriving DecidableEq, Repr

/-- Buffer constructor, PIA.h line 61: head = tail = nullptr (no blocks),
size = 0, state = INIT. -/
def Buffer.init : Buffer := ⟨[], 0, State.INIT⟩

/-- Which ingestion entry point of an analyzer a replayed chunk goes
through (packet-granular or stream-granular). -/
inductive Ingestion where
  | packet
  | stream
deriving DecidableEq, Repr

/-- One delivery made into a downstream analyzer during replay. -/
structure Delivery where
  entry : Ingestion
  data : List Nat
  len : Nat
  is_orig : Bool
  seq : Nat
  ip : Option Nat
deriving DecidableEq, Repr

/-- Observable effects of a delivery call: an invocation of the signature
engine's match step, a replay of buffered chunks into a newly activated
analyzer, or a gap notification for undelivered stream bytes. -/
inductive Out where
  | matched (data : List Nat) (len : Nat) (is_orig : Bool) (clear_state : Bool)
  | replayed (chunks : List Delivery)
  | gapNotice (seq : Nat) (len : Nat) (is_orig : Bool)
deriving DecidableEq, Repr

/-- Modelled from the spec: PIA::AddToBuffer is declared at PIA.h lines
69-72 but its body is not in the excerpt. Spec section 4.1: appends a copy
to the tail of the store, updating size; if appending would exceed the
configured maximum buffered-byte bound, the append is skipped and the
store's phase transitions Buffering to MatchingOnly. -/
def AddToBuffer (bound : Nat) (buffer : Buffer) (seq : Nat) (data : List Nat)
    (is_orig : Bool) (ip : Option Nat) : Buffer :=
  if bound < buffer.size + data.length then
    { buffer with
      state := if buffer.state = State.BUFFERING then State.MATCHING_ONLY else buffer.state }
  else
    { buffer with
      blocks := buffer.blocks ++ [⟨ip, data, is_orig, data.length, seq⟩]
      size := buffer.size + data.length }

/-- Modelled from the spec: PIA::ClearBuffer is declared at PIA.h line 73
but its body is not in the excerpt. Spec section 4.1: frees every chunk
and its byte payload and resets the store to empty; idempotent. -/
def ClearBuffer (buffer : Buffer) : Buffer :=
  { buffer with blocks := [], size := 0 }

/-- A buffered chunk as it is re-delivered during replay, through the
given ingestion entry point, preserving its metadata. -/
def DataBlock.toDelivery (entry : Ingestion) (b : DataBlock) : Delivery :=
  ⟨entry, b.data, b.len, b.is_orig, b.seq, b.ip⟩

/-- Modelled from the spec: replay delivers every chunk in the store,
oldest first, through the analyzer's ingestion entry point matching the
store's kind, preserving direction/sequence/header metadata (spec 4.1). -/
def replayBuffer (entry : Ingestion) (buffer : Buffer) : List Delivery :=
  buffer.blocks.map (DataBlock.toDelivery entry)

/-- Modelled from the spec: PIA::ReplayPacketBuffer (PIA.h line 36), body
not in the excerpt; replays the chunk store through the packet entry
point, oldest first. -/
def ReplayPacketBuffer (buffer : Buffer) : List Delivery :=
  replayBuffer Ingestion.packet buffer

/-- Modelled from the spec: PIA_TCP::ReplayStreamBuffer (PIA.h line 141),
body not in the excerpt; replays the chunk store through the stream entry
point, oldest first. -/
def ReplayStreamBuffer (buffer : Buffer) : List Delivery :=
  replayBuffer Ingestion.stream buffer

/-- Modelled from the spec: one delivery step of the buffering/matching
state machine shared by the packet and stream paths (spec sections 4.1 and
4.5, and the error rules of section 7).  `fires` abstracts whether the
signature engine synchronously requests activation during the match step.
A zero-length call is a no-op; in Skipping nothing is copied or matched;
otherwise first data moves Init to Buffering, a Buffering store appends
subject to the byte bound, the match step always runs, and on a match the
store is replayed into the activated analyzer, cleared, and enters
Skipping. -/
def bufferDeliver (entry : Ingestion) (bound : Nat) (fires : Bool) (buffer : Buffer)
    (data : List Nat) (is_orig : Bool) (seq : Nat) (ip : Option Nat)
    (clear_state : Bool) : Buffer × List Out :=
  if data.length = 0 then (buffer, [])
  else if buffer.state = State.SKIPPING then (buffer, [])
  else
    let b1 := if buffer.state = State.INIT then { buffer with state := State.BUFFERING } else buffer
    let b2 := if b1.state = State.BUFFERING then AddToBuffer bound b1 seq data is_orig ip else b1
    if fires then
      ({ ClearBuffer b2 with state := State.SKIPPING },
       [Out.matched data data.length is_orig clear_state,
        Out.replayed (replayBuffer entry b2)])
    else
      (b2, [Out.matched data data.length is_orig clear_state])

/-- Modelled from the spec: PIA::PIA_DeliverPacket (PIA.h lines 44-45),
body not in the excerpt; the packet-granular delivery entry (spec 4.1)
running the shared step on the packet-view store and forwarding the
clear_state flag to the match step.  caplen is accepted and unused by the
buffering logic. -/
def PIA_DeliverPacket (bound : Nat) (fires : Bool) (buffer : Buffer) (data : List Nat)
    (is_orig : Bool) (seq : Nat) (ip : Option Nat) (_caplen : Nat)
    (clear_state : Bool) : Buffer × List Out :=
  bufferDeliver Ingestion.packet bound fires buffer data is_orig seq ip clear_state

/-- PIA_UDP::DeliverPacket, PIA.h lines 108-113 (inline in the header):
forwards to PIA_DeliverPacket with clear_state = true. -/
def PIA_UDP_DeliverPacket (bound : Nat) (fires : Bool) (buffer : Buffer) (data : List Nat)
    (is_orig : Bool) (seq : Nat) (ip : Option Nat) (caplen : Nat) : Buffer × List Out :=
  PIA_DeliverPacket bound fires buffer data is_orig seq ip caplen true

/-- State of the stream-oriented specialization PIA_TCP (PIA.h lines
121-173): the inherited packet-view store, the stream-view store
(line 170) and the stream_mode flag (line 172).  The seed fields model the
per-direction FirstPacket seeding of spec 4.3 (the seeded header, if
any). -/
structure PIA_TCP where
  pkt_buffer : Buffer
  stream_buffer : Buffer
  stream_mode : Bool
  seed_orig : Option (Option Nat)
  seed_resp : Option (Option Nat)
deriving DecidableEq, Repr

/-- PIA_TCP constructor, PIA.h lines 123-125: stream_mode = false, both
stores default-constructed; no direction seeded yet. -/
def PIA_TCP.init : PIA_TCP := ⟨Buffer.init, Buffer.init, false, none, none⟩

/-- PIA_TCP::DeliverPacket, PIA.h lines 153-158 (inline in the header):
forwards to PIA_DeliverPacket with clear_state = false, acting on the
packet-view store. -/
def PIA_TCP.DeliverPacket (bound : Nat) (fires : Bool) (st : PIA_TCP) (data : List Nat)
    (is_orig : Bool) (seq : Nat) (ip : Option Nat) (caplen : Nat) : PIA_TCP × List Out :=
  let r := PIA_DeliverPacket bound fires st.pkt_buffer data is_orig seq ip caplen false
  ({ st with pkt_buffer := r.1 }, r.2)

/-- Modelled from the spec: PIA_TCP::DeliverStream (PIA.h line 160), body
not in the excerpt.  Spec 4.3: a zero-length call is a no-op; otherwise
the first reassembled bytes flip stream_mode to true, freezing the
packet-view store (no further appends) and clearing it, and from then on
buffering happens in the stream-view store exclusively via the shared
step.  Stream chunks carry no packet sequence number or header (the
no-seq AddToBuffer overload, PIA.h lines 71-72). -/
def PIA_TCP.DeliverStream (bound : Nat) (fires : Bool) (st : PIA_TCP) (data : List Nat)
    (is_orig : Bool) : PIA_TCP × List Out :=
  if data.length = 0 then (st, [])
  else
    let st1 :=
      if st.stream_mode then st
      else { st with
             stream_mode := true
             pkt_buffer := { ClearBuffer st.pkt_buffer with state := State.SKIPPING } }
    let r := bufferDeliver Ingestion.stream bound fires st1.stream_buffer data is_orig 0 none false
    ({ st1 with stream_buffer := r.1 }, r.2)

/-- Modelled from the spec: PIA_TCP::Undelivered (PIA.h line 161), body
not in the excerpt.  Spec 4.3: a gap in the reassembled stream informs the
signature engine that `len` unknown bytes occurred at `seq`, preserving
sequence continuity, but creates no chunk-store entry. -/
def PIA_TCP.Undelivered (st : PIA_TCP) (seq : Nat) (len : Nat) (is_orig : Bool) :
    PIA_TCP × List Out :=
  (st, [Out.gapNotice seq len is_orig])

/-- Modelled from the spec: PIA_TCP::FirstPacket (PIA.h line 139), body
not in the excerpt.  Spec 4.3 and 7: seeds matching with the first raw
packet of one direction; a second invocation for an already-seeded
direction is rejected (returns false) and leaves the state unchanged. -/
def PIA_TCP.FirstPacket (st : PIA_TCP) (is_orig : Bool) (ip : Option Nat) :
    PIA_TCP × Bool :=
  if is_orig then
    match st.seed_orig with
    | some _ => (st, false)
    | none => ({ st with seed_orig := some ip }, true)
  else
    match st.seed_resp with
    | some _ => (st, false)
    | none => ({ st with seed_resp := some ip }, true)

/-- One packet-granular delivery, as fed to the shared step: payload,
direction, sequence, header, clear-state flag and whether the signature
engine fires on it. -/
structure Event where
  data : List Nat
  is_orig : Bool
  seq : Nat
  ip : Option Nat
  clear_state : Bool
  fires : Bool
deriving DecidableEq, Repr

/-- Total payload bytes of a list of deliveries. -/
def eventsSum (evs : List Event) : Nat :=
  (evs.map fun e => e.data.length).sum

/-- The chunk an in-bound delivery leaves in the store. -/
def evBlock (e : Event) : DataBlock :=
  ⟨e.ip, e.data, e.is_orig, e.data.length, e.seq⟩

/-- The replay tuple an in-bound delivery must reproduce. -/
def Event.toDelivery (entry : Ingestion) (e : Event) : Delivery :=
  ⟨entry, e.data, e.data.length, e.is_orig, e.seq, e.ip⟩

/-- Run a list of deliveries through the shared step, returning the final
store. -/
def runBuf (entry : Ingestion) (bound : Nat) : Buffer → List Event → Buffer
  | buf, [] => buf
  | buf, e :: es =>
      runBuf entry bound
        (bufferDeliver entry bound e.fires buf e.data e.is_orig e.seq e.ip e.clear_state).1 es

/-- Observable outputs of a run of deliveries through the shared step. -/
def traceBuf (entry : Ingestion) (bound : Nat) : Buffer → List Event → List Out
  | _, [] => []
  | buf, e :: es =>
      (bufferDeliver entry bound e.fires buf e.data e.is_orig e.seq e.ip e.clear_state).2
        ++ traceBuf entry bound
            (bufferDeliver entry bound e.fires buf e.data e.is_orig e.seq e.ip e.clear_state).1 es

/-- Upstream events a PIA_TCP instance receives from the analyzer tree:
pre-reassembly packets, reassembled stream segments, and gaps. -/
inductive TCPEvent where
  | pkt (data : List Nat) (is_orig : Bool) (seq : Nat) (ip : Option Nat) (caplen : Nat) (fires : Bool)
  | strm (data : List Nat) (is_orig : Bool) (fires : Bool)
  | gap (seq : Nat) (len : Nat) (is_orig : Bool)
deriving DecidableEq, Repr

/-- One upstream event processed by a PIA_TCP instance. -/
def tcpStep (bound : Nat) (st : PIA_TCP) : TCPEvent → PIA_TCP × List Out
  | .pkt data is_orig seq ip caplen fires =>
      PIA_TCP.DeliverPacket bound fires st data is_orig seq ip caplen
  | .strm data is_orig fires => PIA_TCP.DeliverStream bound fires st data is_orig
  | .gap seq len is_orig => PIA_TCP.Undelivered st seq len is_orig

/-- Run a list of upstream events through a PIA_TCP instance. -/
def runTCP (bound : Nat) : PIA_TCP → List TCPEvent → PIA_TCP
  | st, [] => st
  | st, e :: es => runTCP bound (tcpStep bound st e).1 es

/-- Observable outputs of a run of upstream events. -/
def traceTCP (bound : Nat) : PIA_TCP → List TCPEvent → List Out
  | _, [] => []
  | st, e :: es => (tcpStep bound st e).2 ++ traceTCP bound (tcpStep bound st e).1 es

end ZeekPIA

namespace ZeekPIA

theorem length_ne_zero_of_ne_nil {data : List Nat} (hd : data ≠ []) : ¬ data.length = 0 :=
  fun hc => hd (List.length_eq_zero.mp hc)

theorem bufferDeliver_skipping (entry : Ingestion) (bound : Nat) (fires : Bool) (buffer : Buffer)
    (data : List Nat) (is_orig : Bool) (seq : Nat) (ip : Option Nat) (clear_state : Bool)
    (h : buffer.state = State.SKIPPING) :
    bufferDeliver entry bound fires buffer data is_orig seq ip clear_state = (buffer, []) := by
  by_cases hl : data.length = 0
  · simp [bufferDeliver, hl]
  · simp [bufferDeliver, hl, h]

theorem bufferDeliver_ok (entry : Ingestion) (bound : Nat) (buffer : Buffer)
    (data : List Nat) (is_orig : Bool) (seq : Nat) (ip : Option Nat) (clear_state : Bool)
    (h : buffer.state = State.INIT ∨ buffer.state = State.BUFFERING)
    (hd : data ≠ []) (hle : buffer.size + data.length ≤ bound) :
    bufferDeliver entry bound false buffer data is_orig seq ip clear_state
      = (⟨buffer.blocks ++ [⟨ip, data, is_orig, data.length, seq⟩],
          buffer.size + data.length, State.BUFFERING⟩,
         [Out.matched data data.length is_orig clear_state]) := by
  have hl := length_ne_zero_of_ne_nil hd
  have hnot : ¬ bound < buffer.size + data.length := Nat.not_lt.mpr hle
  rcases h with h | h
  · simp [bufferDeliver, AddToBuffer, hl, h, hnot]
  · simp [bufferDeliver, AddToBuffer, hl, h, hnot]

theorem bufferDeliver_exceed (entry : Ingestion) (bound : Nat) (buffer : Buffer)
    (data : List Nat) (is_orig : Bool) (seq : Nat) (ip : Option Nat) (clear_state : Bool)
    (h : buffer.state = State.INIT ∨ buffer.state = State.BUFFERING)
    (hd : data ≠ []) (hgt : bound < buffer.size + data.length) :
    bufferDeliver entry bound false buffer data is_orig seq ip clear_state
      = ({ buffer with state := State.MATCHING_ONLY },
         [Out.matched data data.length is_orig clear_state]) := by
  have hl := length_ne_zero_of_ne_nil hd
  rcases h with h | h
  · simp [bufferDeliver, AddToBuffer, hl, h, hgt]
  · simp [bufferDeliver, AddToBuffer, hl, h, hgt]

theorem bufferDeliver_fire (entry : Ingestion) (bound : Nat) (buffer : Buffer)
    (data : List Nat) (is_orig : Bool) (seq : Nat) (ip : Option Nat) (clear_state : Bool)
    (hd : data ≠ []) (hs : buffer.state ≠ State.SKIPPING) :
    (bufferDeliver entry bound true buffer data is_orig seq ip clear_state).1
      = ⟨[], 0, State.SKIPPING⟩ := by
  have hl := length_ne_zero_of_ne_nil hd
  simp [bufferDeliver, ClearBuffer, hl, hs]

theorem bufferDeliver_matches (entry : Ingestion) (bound : Nat) (fires : Bool) (buffer : Buffer)
    (data : List Nat) (is_orig : Bool) (seq : Nat) (ip : Option Nat) (clear_state : Bool)
    (hd : data ≠ []) (hs : buffer.state ≠ State.SKIPPING) :
    (bufferDeliver entry bound fires buffer data is_orig seq ip clear_state).2.head?
      = some (Out.matched data data.length is_orig clear_state) := by
  have hl := length_ne_zero_of_ne_nil hd
  cases fires <;> simp [bufferDeliver, hl, hs]

theorem runBuf_skipping (entry : Ingestion) (bound : Nat) (evs : List Event) :
    ∀ buf : Buffer, buf.state = State.SKIPPING →
    runBuf entry bound buf evs = buf ∧ traceBuf entry bound buf evs = [] := by
  induction evs with
  | nil => intro buf _; exact ⟨rfl, rfl⟩
  | cons e es ih =>
      intro buf h
      have hstep := bufferDeliver_skipping entry bound e.fires buf e.data e.is_orig e.seq
        e.ip e.clear_state h
      refine ⟨?_, ?_⟩
      · simp only [runBuf, hstep]
        exact (ih buf h).1
      · simp only [traceBuf, hstep]
        simp [(ih buf h).2]

theorem runBuf_append (entry : Ingestion) (bound : Nat) (a b : List Event) :
    ∀ buf : Buffer,
    runBuf entry bound buf (a ++ b) = runBuf entry bound (runBuf entry bound buf a) b := by
  induction a with
  | nil => intro buf; rfl
  | cons e es ih =>
      intro buf
      simp only [List.cons_append, runBuf]
      exact ih _


theorem eventsSum_cons (e : Event) (es : List Event) :
    eventsSum (e :: es) = e.data.length + eventsSum es := by
  simp [eventsSum]

theorem runBuf_buffering (entry : Ingestion) (bound : Nat) (evs : List Event) :
    ∀ buf : Buffer, buf.state = State.BUFFERING →
    (∀ x ∈ evs, x.data ≠ []) → (∀ x ∈ evs, x.fires = false) →
    buf.size + eventsSum evs ≤ bound →
    runBuf entry bound buf evs
      = ⟨buf.blocks ++ evs.map evBlock, buf.size + eventsSum evs, State.BUFFERING⟩ := by
  induction evs with
  | nil =>
      intro buf h _ _ _
      cases buf with
      | mk blocks size state =>
          subst h
          simp [runBuf, eventsSum]
  | cons e es ih =>
      intro buf h h1 h2 hle
      have he : e.data ≠ [] := h1 e (List.mem_cons_self e es)
      have hef : e.fires = false := h2 e (List.mem_cons_self e es)
      have hsum := eventsSum_cons e es
      have hse : buf.size + e.data.length ≤ bound := by omega
      have hstep := bufferDeliver_ok entry bound buf e.data e.is_orig e.seq e.ip
        e.clear_state (Or.inr h) he hse
      have hrest := ih ⟨buf.blocks ++ [⟨e.ip, e.data, e.is_orig, e.data.length, e.seq⟩],
          buf.size + e.data.length, State.BUFFERING⟩ rfl
        (fun x hx => h1 x (List.mem_cons_of_mem e hx))
        (fun x hx => h2 x (List.mem_cons_of_mem e hx))
        (by show buf.size + e.data.length + eventsSum es ≤ bound; omega)
      simp only [runBuf, hef, hstep]
      rw [hrest]
      simp [evBlock, hsum]
      omega

theorem runBuf_from_init (entry : Ingestion) (bound : Nat) (evs : List Event)
    (h1 : ∀ x ∈ evs, x.data ≠ []) (h2 : ∀ x ∈ evs, x.fires = false)
    (hle : eventsSum evs ≤ bound) :
    runBuf entry bound Buffer.init evs
      = ⟨evs.map evBlock, eventsSum evs,
         if evs = [] then State.INIT else State.BUFFERING⟩ := by
  cases evs with
  | nil => simp [runBuf, Buffer.init, eventsSum]
  | cons e es =>
      have he : e.data ≠ [] := h1 e (List.mem_cons_self e es)
      have hef : e.fires = false := h2 e (List.mem_cons_self e es)
      have hsum := eventsSum_cons e es
      have hse : Buffer.init.size + e.data.length ≤ bound := by
        show 0 + e.data.length ≤ bound; omega
      have hstep := bufferDeliver_ok entry bound Buffer.init e.data e.is_orig e.seq e.ip
        e.clear_state (Or.inl rfl) he hse
      have hrest := runBuf_buffering entry bound es
        ⟨Buffer.init.blocks ++ [⟨e.ip, e.data, e.is_orig, e.data.length, e.seq⟩],
         Buffer.init.size + e.data.length, State.BUFFERING⟩ rfl
        (fun x hx => h1 x (List.mem_cons_of_mem e hx))
        (fun x hx => h2 x (List.mem_cons_of_mem e hx))
        (by show Buffer.init.size + e.data.length + eventsSum es ≤ bound
            simp [Buffer.init]; omega)
      simp only [runBuf, hef, hstep]
      rw [hrest]
      simp [evBlock, hsum, Buffer.init]


/-- The packet-view store is frozen and released: empty and in Skipping. -/
def pktFrozen (st : PIA_TCP) : Prop :=
  st.pkt_buffer.blocks = [] ∧ st.pkt_buffer.size = 0 ∧ st.pkt_buffer.state = State.SKIPPING

theorem runTCP_append (bound : Nat) (a b : List TCPEvent) :
    ∀ st : PIA_TCP,
    runTCP bound st (a ++ b) = runTCP bound (runTCP bound st a) b := by
  induction a with
  | nil => intro st; rfl
  | cons e es ih =>
      intro st
      simp only [List.cons_append, runTCP]
      exact ih _

theorem traceTCP_append (bound : Nat) (a b : List TCPEvent) :
    ∀ st : PIA_TCP,
    traceTCP bound st (a ++ b)
      = traceTCP bound st a ++ traceTCP bound (runTCP bound st a) b := by
  induction a with
  | nil => intro st; rfl
  | cons e es ih =>
      intro st
      simp only [List.cons_append, traceTCP, runTCP, List.append_eq]
      rw [ih]
      simp [List.append_assoc]

theorem tcpStep_preserves_frozen (bound : Nat) (st : PIA_TCP) (e : TCPEvent)
    (hm : st.stream_mode = true) (hf : pktFrozen st) :
    (tcpStep bound st e).1.stream_mode = true ∧ pktFrozen (tcpStep bound st e).1
      ∧ (tcpStep bound st e).1.pkt_buffer = st.pkt_buffer := by
  cases e with
  | pkt data is_orig seq ip caplen fires =>
      have hstep := bufferDeliver_skipping Ingestion.packet bound fires st.pkt_buffer data
        is_orig seq ip false hf.2.2
      simp [tcpStep, PIA_TCP.DeliverPacket, PIA_DeliverPacket, hstep, hm, pktFrozen,
        hf.1, hf.2.1, hf.2.2]
  | strm data is_orig fires =>
      by_cases hl : data.length = 0
      · simp [tcpStep, PIA_TCP.DeliverStream, hl, hm, pktFrozen, hf.1, hf.2.1, hf.2.2]
      · simp [tcpStep, PIA_TCP.DeliverStream, hl, hm, pktFrozen, hf.1, hf.2.1, hf.2.2]
  | gap seq len is_orig =>
      exact ⟨hm, hf, rfl⟩

theorem runTCP_frozen (bound : Nat) (evs : List TCPEvent) :
    ∀ st : PIA_TCP, st.stream_mode = true → pktFrozen st →
    (runTCP bound st evs).stream_mode = true ∧ pktFrozen (runTCP bound st evs)
      ∧ (runTCP bound st evs).pkt_buffer = st.pkt_buffer := by
  induction evs with
  | nil => intro st hm hf; exact ⟨hm, hf, rfl⟩
  | cons e es ih =>
      intro st hm hf
      obtain ⟨h1, h2, h3⟩ := tcpStep_preserves_frozen bound st e hm hf
      obtain ⟨g1, g2, g3⟩ := ih _ h1 h2
      refine ⟨g1, g2, ?_⟩
      show (runTCP bound (tcpStep bound st e).1 es).pkt_buffer = st.pkt_buffer
      rw [g3, h3]

theorem tcpStep_inv (bound : Nat) (st : PIA_TCP) (e : TCPEvent)
    (h : st.stream_mode = true → pktFrozen st) :
    (tcpStep bound st e).1.stream_mode = true → pktFrozen (tcpStep bound st e).1 := by
  intro hm'
  cases e with
  | pkt data is_orig seq ip caplen fires =>
      have hm : st.stream_mode = true := by
        simpa [tcpStep, PIA_TCP.DeliverPacket, PIA_DeliverPacket] using hm'
      exact (tcpStep_preserves_frozen bound st (.pkt data is_orig seq ip caplen fires) hm (h hm)).2.1
  | strm data is_orig fires =>
      by_cases hl : data.length = 0
      · have hres : tcpStep bound st (.strm data is_orig fires) = (st, []) := by
          simp [tcpStep, PIA_TCP.DeliverStream, hl]
        rw [hres] at hm' ⊢
        exact h hm'
      · by_cases hm : st.stream_mode
        · exact (tcpStep_preserves_frozen bound st (.strm data is_orig fires) hm (h hm)).2.1
        · simp [tcpStep, PIA_TCP.DeliverStream, hl, hm, pktFrozen, ClearBuffer]
  | gap seq len is_orig =>
      exact h hm'

theorem runTCP_inv (bound : Nat) (evs : List TCPEvent) :
    ∀ st : PIA_TCP, (st.stream_mode = true → pktFrozen st) →
    ((runTCP bound st evs).stream_mode = true → pktFrozen (runTCP bound st evs)) := by
  induction evs with
  | nil => intro st h; exact h
  | cons e es ih =>
      intro st h
      exact ih _ (tcpStep_inv bound st e h)

theorem tcpStep_virgin (bound : Nat) (st : PIA_TCP) (e : TCPEvent)
    (h : st.stream_mode = false → st.stream_buffer = Buffer.init) :
    (tcpStep bound st e).1.stream_mode = false
      → (tcpStep bound st e).1.stream_buffer = Buffer.init := by
  intro hm'
  cases e with
  | pkt data is_orig seq ip caplen fires =>
      have hm : st.stream_mode = false := by
        simpa [tcpStep, PIA_TCP.DeliverPacket, PIA_DeliverPacket] using hm'
      have := h hm
      simpa [tcpStep, PIA_TCP.DeliverPacket, PIA_DeliverPacket] using this
  | strm data is_orig fires =>
      by_cases hl : data.length = 0
      · have hres : tcpStep bound st (.strm data is_orig fires) = (st, []) := by
          simp [tcpStep, PIA_TCP.DeliverStream, hl]
        rw [hres] at hm' ⊢
        exact h hm'
      · exfalso
        by_cases hm : st.stream_mode <;>
          simp [tcpStep, PIA_TCP.DeliverStream, hl, hm] at hm'
  | gap seq len is_orig =>
      exact h hm'

theorem runTCP_virgin (bound : Nat) (evs : List TCPEvent) :
    ∀ st : PIA_TCP, (st.stream_mode = false → st.stream_buffer = Buffer.init) →
    ((runTCP bound st evs).stream_mode = false
      → (runTCP bound st evs).stream_buffer = Buffer.init) := by
  induction evs with
  | nil => intro st h; exact h
  | cons e es ih =>
      intro st h
      exact ih _ (tcpStep_virgin bound st e h)

theorem DeliverStream_flip (bound : Nat) (fires : Bool) (st : PIA_TCP)
    (data : List Nat) (is_orig : Bool) (hd : data ≠ [])
    (h : st.stream_mode = true → pktFrozen st) :
    (PIA_TCP.DeliverStream bound fires st data is_orig).1.stream_mode = true
    ∧ pktFrozen (PIA_TCP.DeliverStream bound fires st data is_orig).1 := by
  have hl := length_ne_zero_of_ne_nil hd
  by_cases hm : st.stream_mode
  · have hf := h hm
    simp [PIA_TCP.DeliverStream, hl, hm, pktFrozen, hf.1, hf.2.1, hf.2.2]
  · simp [PIA_TCP.DeliverStream, hl, hm, pktFrozen, ClearBuffer]

theorem runTCP_strm_stream_buffer (bound : Nat) (ds : List (List Nat × Bool)) :
    ∀ st : PIA_TCP,
    (runTCP bound st (ds.map fun p => TCPEvent.strm p.1 p.2 false)).stream_buffer
      = runBuf Ingestion.stream bound st.stream_buffer
          (ds.map fun p => ⟨p.1, p.2, 0, none, false, false⟩) := by
  induction ds with
  | nil => intro st; rfl
  | cons p ps ih =>
      intro st
      simp only [List.map_cons, runTCP, runBuf, tcpStep]
      have hsb : (PIA_TCP.DeliverStream bound false st p.1 p.2).1.stream_buffer
          = (bufferDeliver Ingestion.stream bound false st.stream_buffer p.1 p.2 0 none false).1 := by
        by_cases hl : p.1.length = 0
        · have hstep := bufferDeliver_skipping Ingestion.stream bound false st.stream_buffer
            p.1 p.2 0 none false
          simp [PIA_TCP.DeliverStream, hl, bufferDeliver]
        · by_cases hm : st.stream_mode <;> simp [PIA_TCP.DeliverStream, hl, hm]
      rw [ih ((PIA_TCP.DeliverStream bound false st p.1 p.2).1), hsb]


/-- C10: Every newly constructed chunk store (Buffer) starts empty with no
blocks (head and tail null), size 0 and phase Init, and a newly
constructed PIA_TCP additionally starts with stream_mode false and both
stores in that initial state, so before the first delivery no chunk
exists and no byte is accounted in either store. -/
theorem C10_initial_state :
    Buffer.init.blocks = [] ∧ Buffer.init.size = 0 ∧ Buffer.init.state = State.INIT
    ∧ PIA_TCP.init.stream_mode = false
    ∧ PIA_TCP.init.pkt_buffer = Buffer.init ∧ PIA_TCP.init.stream_buffer = Buffer.init :=
  ⟨rfl, rfl, rfl, rfl, rfl, rfl⟩

/-- C8: ClearBuffer is idempotent: clearing any chunk store leaves it
empty with size 0, and clearing again (in particular an already-empty
store) is a no-op yielding the same empty store. -/
theorem C8_clear_idempotent (buffer : Buffer) :
    (ClearBuffer buffer).blocks = [] ∧ (ClearBuffer buffer).size = 0
    ∧ ClearBuffer (ClearBuffer buffer) = ClearBuffer buffer :=
  ⟨rfl, rfl, rfl⟩

/-- C5: FirstPacket seeds a direction at most once: after any FirstPacket
call for a direction, a second call for the same direction is rejected
(returns false) and leaves the state, including the seeding established
by the first call, unchanged. -/
theorem C5_first_packet_once (st : PIA_TCP) (is_orig : Bool) (ip ip2 : Option Nat) :
    PIA_TCP.FirstPacket (PIA_TCP.FirstPacket st is_orig ip).1 is_orig ip2
      = ((PIA_TCP.FirstPacket st is_orig ip).1, false) := by
  cases is_orig with
  | false => cases h : st.seed_resp <;> simp [PIA_TCP.FirstPacket, h]
  | true => cases h : st.seed_orig <;> simp [PIA_TCP.FirstPacket, h]

/-- C9: A zero-length delivery, on the packet path or the stream path, is
accepted as a no-op: the store and its phase are unchanged and no match
step is invoked. -/
theorem C9_zero_length_noop (bound : Nat) (fires fires2 : Bool) (buffer : Buffer)
    (st : PIA_TCP) (is_orig is_orig2 : Bool) (seq : Nat) (ip : Option Nat)
    (caplen : Nat) (clear_state : Bool) :
    PIA_DeliverPacket bound fires buffer [] is_orig seq ip caplen clear_state = (buffer, [])
    ∧ PIA_TCP.DeliverStream bound fires2 st [] is_orig2 = (st, []) :=
  ⟨rfl, rfl⟩

/-- C4: On every non-trivial packet delivery, the packet-oriented
specialization (PIA_UDP::DeliverPacket) invokes the match step with
clear_state = true, and the stream-oriented specialization's
pre-reassembly packet path (PIA_TCP::DeliverPacket) invokes it with
clear_state = false. -/
theorem C4_clear_state_flags (bound : Nat) (fires fires2 : Bool) (buffer : Buffer)
    (st : PIA_TCP) (data : List Nat) (is_orig : Bool) (seq : Nat) (ip : Option Nat)
    (caplen : Nat)
    (hd : data ≠ []) (h1 : buffer.state ≠ State.SKIPPING)
    (h2 : st.pkt_buffer.state ≠ State.SKIPPING) :
    (PIA_UDP_DeliverPacket bound fires buffer data is_orig seq ip caplen).2.head?
      = some (Out.matched data data.length is_orig true)
    ∧ (PIA_TCP.DeliverPacket bound fires2 st data is_orig seq ip caplen).2.head?
      = some (Out.matched data data.length is_orig false) := by
  constructor
  · exact bufferDeliver_matches Ingestion.packet bound fires buffer data is_orig seq ip true hd h1
  · exact bufferDeliver_matches Ingestion.packet bound fires2 st.pkt_buffer data is_orig seq
      ip false hd h2

/-- Witness for C4 at a concrete input. -/
theorem C4_clear_state_flags_witness :
    (([1] : List Nat) ≠ [] ∧ Buffer.init.state ≠ State.SKIPPING
      ∧ PIA_TCP.init.pkt_buffer.state ≠ State.SKIPPING)
    ∧ ((PIA_UDP_DeliverPacket 10 false Buffer.init [1] true 0 none 1).2.head?
        = some (Out.matched [1] ([1] : List Nat).length true true)
      ∧ (PIA_TCP.DeliverPacket 10 false PIA_TCP.init [1] true 0 none 1).2.head?
        = some (Out.matched [1] ([1] : List Nat).length true false)) :=
  ⟨⟨by decide, by decide, by decide⟩,
   C4_clear_state_flags 10 false false Buffer.init PIA_TCP.init [1] true 0 none 1
     (by decide) (by decide) (by decide)⟩

/-- C3: Activation is effective at most once per chunk store: a delivery
on which the engine fires (with data, store not yet Skipping) leaves the
store in Skipping with its chunks released, and Skipping is terminal: any
subsequent run of deliveries, even ones on which the engine fires again,
leaves the store unchanged, appends no chunk, and invokes neither the
matcher nor a replay. -/
theorem C3_activation_once (entry : Ingestion) (bound : Nat) (buffer : Buffer)
    (data : List Nat) (is_orig : Bool) (seq : Nat) (ip : Option Nat) (clear_state : Bool)
    (evs : List Event)
    (hd : data ≠ []) (hs : buffer.state ≠ State.SKIPPING) :
    (bufferDeliver entry bound true buffer data is_orig seq ip clear_state).1.state
      = State.SKIPPING
    ∧ runBuf entry bound (bufferDeliver entry bound true buffer data is_orig seq ip clear_state).1 evs
        = (bufferDeliver entry bound true buffer data is_orig seq ip clear_state).1
    ∧ traceBuf entry bound (bufferDeliver entry bound true buffer data is_orig seq ip clear_state).1 evs
        = [] := by
  have hfire := bufferDeliver_fire entry bound buffer data is_orig seq ip clear_state hd hs
  have hsk : (bufferDeliver entry bound true buffer data is_orig seq ip clear_state).1.state
      = State.SKIPPING := by rw [hfire]
  obtain ⟨r1, r2⟩ := runBuf_skipping entry bound evs _ hsk
  exact ⟨hsk, r1, r2⟩

/-- Witness for C3 at a concrete input: after a match fires on the first
chunk, a later delivery on which the engine fires again is ignored. -/
theorem C3_activation_once_witness :
    (([1] : List Nat) ≠ [] ∧ Buffer.init.state ≠ State.SKIPPING)
    ∧ ((bufferDeliver Ingestion.packet 10 true Buffer.init [1] true 0 none true).1.state
        = State.SKIPPING
      ∧ runBuf Ingestion.packet 10
          (bufferDeliver Ingestion.packet 10 true Buffer.init [1] true 0 none true).1
          [⟨[2], false, 1, none, true, true⟩]
        = (bufferDeliver Ingestion.packet 10 true Buffer.init [1] true 0 none true).1
      ∧ traceBuf Ingestion.packet 10
          (bufferDeliver Ingestion.packet 10 true Buffer.init [1] true 0 none true).1
          [⟨[2], false, 1, none, true, true⟩]
        = []) :=
  ⟨⟨by decide, by decide⟩,
   C3_activation_once Ingestion.packet 10 Buffer.init [1] true 0 none true
     [⟨[2], false, 1, none, true, true⟩] (by decide) (by decide)⟩


/-- C2: In a run of packet deliveries with no match, while the cumulative
buffered bytes stay within the bound every append succeeds (size equals
the sum of delivered lengths) and the phase stays Buffering (Init while
nothing arrived); the first delivery whose append would exceed the bound
is skipped (size unchanged) and transitions the phase to MatchingOnly,
never earlier. -/
theorem C2_bound_transition (bound : Nat) (pre : List Event) (e : Event)
    (hpre : ∀ x ∈ pre, x.data ≠ []) (hnf : ∀ x ∈ pre, x.fires = false)
    (hsum : eventsSum pre ≤ bound)
    (he : e.data ≠ []) (hef : e.fires = false)
    (hex : bound < eventsSum pre + e.data.length) :
    (runBuf Ingestion.packet bound Buffer.init pre).size = eventsSum pre
    ∧ (runBuf Ingestion.packet bound Buffer.init pre).state
        = (if pre = [] then State.INIT else State.BUFFERING)
    ∧ (runBuf Ingestion.packet bound Buffer.init (pre ++ [e])).size = eventsSum pre
    ∧ (runBuf Ingestion.packet bound Buffer.init (pre ++ [e])).state
        = State.MATCHING_ONLY := by
  have hrun := runBuf_from_init Ingestion.packet bound pre hpre hnf hsum
  have happ := runBuf_append Ingestion.packet bound pre [e] Buffer.init
  have hBsize : (runBuf Ingestion.packet bound Buffer.init pre).size = eventsSum pre := by
    rw [hrun]
  have hBstate : (runBuf Ingestion.packet bound Buffer.init pre).state
      = (if pre = [] then State.INIT else State.BUFFERING) := by
    rw [hrun]
  have hor : (runBuf Ingestion.packet bound Buffer.init pre).state = State.INIT
      ∨ (runBuf Ingestion.packet bound Buffer.init pre).state = State.BUFFERING := by
    rw [hBstate]
    by_cases hp : pre = [] <;> simp [hp]
  have hgt : bound < (runBuf Ingestion.packet bound Buffer.init pre).size + e.data.length := by
    rw [hBsize]
    exact hex
  have hstep := bufferDeliver_exceed Ingestion.packet bound
    (runBuf Ingestion.packet bound Buffer.init pre) e.data e.is_orig e.seq e.ip
    e.clear_state hor he hgt
  refine ⟨hBsize, hBstate, ?_, ?_⟩
  · rw [happ]
    simp only [runBuf, hef, hstep]
    simpa using hBsize
  · rw [happ]
    simp only [runBuf, hef, hstep]

/-- Witness for C2 at a concrete input: bound 5, one 3-byte delivery
within the bound, then a 3-byte delivery whose append would exceed it. -/
theorem C2_bound_transition_witness :
    ((∀ x ∈ ([⟨[1, 2, 3], true, 0, none, false, false⟩] : List Event), x.data ≠ [])
     ∧ (∀ x ∈ ([⟨[1, 2, 3], true, 0, none, false, false⟩] : List Event), x.fires = false)
     ∧ eventsSum [⟨[1, 2, 3], true, 0, none, false, false⟩] ≤ 5
     ∧ (⟨[4, 5, 6], false, 1, none, false, false⟩ : Event).data ≠ []
     ∧ (⟨[4, 5, 6], false, 1, none, false, false⟩ : Event).fires = false
     ∧ 5 < eventsSum [⟨[1, 2, 3], true, 0, none, false, false⟩]
         + (⟨[4, 5, 6], false, 1, none, false, false⟩ : Event).data.length)
    ∧ ((runBuf Ingestion.packet 5 Buffer.init
          [⟨[1, 2, 3], true, 0, none, false, false⟩]).size
        = eventsSum [⟨[1, 2, 3], true, 0, none, false, false⟩]
      ∧ (runBuf Ingestion.packet 5 Buffer.init
          [⟨[1, 2, 3], true, 0, none, false, false⟩]).state
        = (if ([⟨[1, 2, 3], true, 0, none, false, false⟩] : List Event) = []
           then State.INIT else State.BUFFERING)
      ∧ (runBuf Ingestion.packet 5 Buffer.init
          ([⟨[1, 2, 3], true, 0, none, false, false⟩]
            ++ [⟨[4, 5, 6], false, 1, none, false, false⟩])).size
        = eventsSum [⟨[1, 2, 3], true, 0, none, false, false⟩]
      ∧ (runBuf Ingestion.packet 5 Buffer.init
          ([⟨[1, 2, 3], true, 0, none, false, false⟩]
            ++ [⟨[4, 5, 6], false, 1, none, false, false⟩])).state
        = State.MATCHING_ONLY) :=
  ⟨⟨by decide, by decide, by decide, by decide, by decide, by decide⟩,
   C2_bound_transition 5 [⟨[1, 2, 3], true, 0, none, false, false⟩]
     ⟨[4, 5, 6], false, 1, none, false, false⟩
     (by decide) (by decide) (by decide) (by decide) (by decide) (by decide)⟩


/-- C1: Replay delivers every buffered chunk, oldest first, through the
ingestion entry point matching the store's kind, reproducing for each
chunk the byte-identical (data, length, is_orig, seq) tuple and header
metadata in original arrival order: for any bounded no-match run of
packet deliveries, ReplayPacketBuffer reproduces the delivered tuples via
the packet entry point, and for any bounded no-match run of stream
deliveries, ReplayStreamBuffer reproduces them via the stream entry
point. -/
theorem C1_replay_fidelity (bound : Nat) (evs : List Event) (ds : List (List Nat × Bool))
    (h1 : ∀ x ∈ evs, x.data ≠ []) (h2 : ∀ x ∈ evs, x.fires = false)
    (h3 : eventsSum evs ≤ bound)
    (h4 : ∀ p ∈ ds, p.1 ≠ [])
    (h5 : (ds.map fun p => p.1.length).sum ≤ bound) :
    ReplayPacketBuffer (runBuf Ingestion.packet bound Buffer.init evs)
      = evs.map (Event.toDelivery Ingestion.packet)
    ∧ ReplayStreamBuffer
        ((runTCP bound PIA_TCP.init (ds.map fun p => TCPEvent.strm p.1 p.2 false)).stream_buffer)
      = ds.map fun p => Delivery.mk Ingestion.stream p.1 p.1.length p.2 0 none := by
  constructor
  · rw [runBuf_from_init Ingestion.packet bound evs h1 h2 h3]
    simp [ReplayPacketBuffer, replayBuffer, List.map_map, DataBlock.toDelivery, evBlock,
      Event.toDelivery]
  · have h1m : ∀ x ∈ ds.map fun p => (⟨p.1, p.2, 0, none, false, false⟩ : Event),
        x.data ≠ [] := by
      intro x hx
      obtain ⟨p, hp, rfl⟩ := List.mem_map.mp hx
      exact h4 p hp
    have h2m : ∀ x ∈ ds.map fun p => (⟨p.1, p.2, 0, none, false, false⟩ : Event),
        x.fires = false := by
      intro x hx
      obtain ⟨p, hp, rfl⟩ := List.mem_map.mp hx
      rfl
    have h3m : eventsSum (ds.map fun p => (⟨p.1, p.2, 0, none, false, false⟩ : Event))
        ≤ bound := by
      have hEq : eventsSum (ds.map fun p => (⟨p.1, p.2, 0, none, false, false⟩ : Event))
          = (ds.map fun p => p.1.length).sum := by
        simp only [eventsSum, List.map_map]
        rfl
      rw [hEq]
      exact h5
    rw [runTCP_strm_stream_buffer bound ds PIA_TCP.init]
    rw [show PIA_TCP.init.stream_buffer = Buffer.init from rfl]
    rw [runBuf_from_init Ingestion.stream bound _ h1m h2m h3m]
    simp [ReplayStreamBuffer, replayBuffer, List.map_map, DataBlock.toDelivery, evBlock]

/-- Witness for C1 at a concrete input: one buffered packet and one
buffered stream segment, replayed with identical tuples. -/
theorem C1_replay_fidelity_witness :
    ((∀ x ∈ ([⟨[1], true, 5, some 2, false, false⟩] : List Event), x.data ≠ [])
     ∧ (∀ x ∈ ([⟨[1], true, 5, some 2, false, false⟩] : List Event), x.fires = false)
     ∧ eventsSum [⟨[1], true, 5, some 2, false, false⟩] ≤ 10
     ∧ (∀ p ∈ ([([3, 4], false)] : List (List Nat × Bool)), p.1 ≠ [])
     ∧ (([([3, 4], false)] : List (List Nat × Bool)).map fun p => p.1.length).sum ≤ 10)
    ∧ (ReplayPacketBuffer (runBuf Ingestion.packet 10 Buffer.init
          [⟨[1], true, 5, some 2, false, false⟩])
        = ([⟨[1], true, 5, some 2, false, false⟩] : List Event).map
            (Event.toDelivery Ingestion.packet)
      ∧ ReplayStreamBuffer
          ((runTCP 10 PIA_TCP.init
              (([([3, 4], false)] : List (List Nat × Bool)).map
                fun p => TCPEvent.strm p.1 p.2 false)).stream_buffer)
        = ([([3, 4], false)] : List (List Nat × Bool)).map
            fun p => Delivery.mk Ingestion.stream p.1 p.1.length p.2 0 none) :=
  ⟨⟨by decide, by decide, by decide, by decide, by decide⟩,
   C1_replay_fidelity 10 [⟨[1], true, 5, some 2, false, false⟩] [([3, 4], false)]
     (by decide) (by decide) (by decide) (by decide) (by decide)⟩


/-- C6: Once DeliverStream has delivered reassembled bytes, stream_mode
is true and stays true; from that point the packet-view store is frozen
(unchanged by every later event) and cleared (no blocks, size 0), so all
buffering happens in the stream-view store exclusively; and before stream
mode the stream-view store has never received a byte, so no delivered
byte is ever buffered in both stores. -/
theorem C6_stream_mode_freeze (bound : Nat) (pre more : List TCPEvent) (d : List Nat)
    (o f : Bool) (hd : d ≠ []) :
    (runTCP bound PIA_TCP.init (pre ++ [TCPEvent.strm d o f])).stream_mode = true
    ∧ (runTCP bound PIA_TCP.init (pre ++ [TCPEvent.strm d o f])).pkt_buffer.blocks = []
    ∧ (runTCP bound PIA_TCP.init (pre ++ [TCPEvent.strm d o f])).pkt_buffer.size = 0
    ∧ (runTCP bound PIA_TCP.init ((pre ++ [TCPEvent.strm d o f]) ++ more)).pkt_buffer
        = (runTCP bound PIA_TCP.init (pre ++ [TCPEvent.strm d o f])).pkt_buffer
    ∧ (runTCP bound PIA_TCP.init ((pre ++ [TCPEvent.strm d o f]) ++ more)).stream_mode = true
    ∧ ((runTCP bound PIA_TCP.init pre).stream_mode = false
        → (runTCP bound PIA_TCP.init pre).stream_buffer = Buffer.init) := by
  have hInvInit : PIA_TCP.init.stream_mode = true → pktFrozen PIA_TCP.init :=
    fun h => absurd h (by decide)
  have hInvPre := runTCP_inv bound pre PIA_TCP.init hInvInit
  have happ := runTCP_append bound pre [TCPEvent.strm d o f] PIA_TCP.init
  have hstep : runTCP bound (runTCP bound PIA_TCP.init pre) [TCPEvent.strm d o f]
      = (PIA_TCP.DeliverStream bound f (runTCP bound PIA_TCP.init pre) d o).1 := rfl
  have hflip := DeliverStream_flip bound f (runTCP bound PIA_TCP.init pre) d o hd hInvPre
  have hmode : (runTCP bound PIA_TCP.init (pre ++ [TCPEvent.strm d o f])).stream_mode
      = true := by
    rw [happ, hstep]
    exact hflip.1
  have hfroz : pktFrozen (runTCP bound PIA_TCP.init (pre ++ [TCPEvent.strm d o f])) := by
    rw [happ, hstep]
    exact hflip.2
  have happ2 := runTCP_append bound (pre ++ [TCPEvent.strm d o f]) more PIA_TCP.init
  have hrest := runTCP_frozen bound more
    (runTCP bound PIA_TCP.init (pre ++ [TCPEvent.strm d o f])) hmode hfroz
  refine ⟨hmode, hfroz.1, hfroz.2.1, ?_, ?_,
    runTCP_virgin bound pre PIA_TCP.init (fun _ => rfl)⟩
  · rw [happ2]
    exact hrest.2.2
  · rw [happ2]
    exact hrest.1

/-- Witness for C6 at a concrete input: one buffered packet, then a
stream segment flipping stream mode, then a later packet that must not
touch the frozen packet-view store. -/
theorem C6_stream_mode_freeze_witness :
    (([1, 2] : List Nat) ≠ [])
    ∧ ((runTCP 10 PIA_TCP.init
          ([TCPEvent.pkt [9] true 0 none 2 false] ++ [TCPEvent.strm [1, 2] true false])).stream_mode
        = true
      ∧ (runTCP 10 PIA_TCP.init
          ([TCPEvent.pkt [9] true 0 none 2 false] ++ [TCPEvent.strm [1, 2] true false])).pkt_buffer.blocks
        = []
      ∧ (runTCP 10 PIA_TCP.init
          ([TCPEvent.pkt [9] true 0 none 2 false] ++ [TCPEvent.strm [1, 2] true false])).pkt_buffer.size
        = 0
      ∧ (runTCP 10 PIA_TCP.init
          (([TCPEvent.pkt [9] true 0 none 2 false] ++ [TCPEvent.strm [1, 2] true false])
            ++ [TCPEvent.pkt [7] false 1 none 1 false])).pkt_buffer
        = (runTCP 10 PIA_TCP.init
            ([TCPEvent.pkt [9] true 0 none 2 false] ++ [TCPEvent.strm [1, 2] true false])).pkt_buffer
      ∧ (runTCP 10 PIA_TCP.init
          (([TCPEvent.pkt [9] true 0 none 2 false] ++ [TCPEvent.strm [1, 2] true false])
            ++ [TCPEvent.pkt [7] false 1 none 1 false])).stream_mode
        = true
      ∧ ((runTCP 10 PIA_TCP.init [TCPEvent.pkt [9] true 0 none 2 false]).stream_mode = false
          → (runTCP 10 PIA_TCP.init [TCPEvent.pkt [9] true 0 none 2 false]).stream_buffer
            = Buffer.init)) :=
  ⟨by decide,
   C6_stream_mode_freeze 10 [TCPEvent.pkt [9] true 0 none 2 false]
     [TCPEvent.pkt [7] false 1 none 1 false] [1, 2] true false (by decide)⟩

/-- C7: An Undelivered(seq, len, is_orig) call changes neither store (no
chunk entry is created and no size increases), while the signature engine
is informed that a gap of exactly len bytes occurred at that sequence
position. -/
theorem C7_undelivered_gap (bound : Nat) (evs : List TCPEvent) (seq len : Nat)
    (is_orig : Bool) :
    runTCP bound PIA_TCP.init (evs ++ [TCPEvent.gap seq len is_orig])
      = runTCP bound PIA_TCP.init evs
    ∧ traceTCP bound PIA_TCP.init (evs ++ [TCPEvent.gap seq len is_orig])
      = traceTCP bound PIA_TCP.init evs ++ [Out.gapNotice seq len is_orig] := by
  constructor
  · rw [runTCP_append bound evs [TCPEvent.gap seq len is_orig] PIA_TCP.init]
    rfl
  · rw [traceTCP_append bound evs [TCPEvent.gap seq len is_orig] PIA_TCP.init]
    rfl

